import Mathlib

/-!
# Formal model of the atabot-v2 ingest-and-retrieval engine

Shallow embedding, in Lean 4, of the parts of the `atabot-v2` source that the
specification's checked claims talk about:

* `app/services/embedding_queue.py` — submission, deduplication, super-batch
  assembly, vector validation and batch-status tracking of the embedding queue;
* `app/services/sql_generator.py` — SQL validation and the execution wrapper;
* `app/services/search_service.py` — the hybrid-search SQL builder, the
  aggregation/superlative shortcut and the content-boost scoring;
* `app/services/sync_service.py` — the two row-identifier derivations of the
  sync pipeline;
* `app/core/embeddings.py` — embedding validation and cosine similarity.

Modelling conventions:

* Python `float` arithmetic is embedded as exact arithmetic over `ℚ`
  (respectively `ℝ` where a square root occurs); float literals such as `0.1`
  become the exact rationals they denote in the source text.
* Python dicts are association lists; an assignment conses the new binding in
  front and `alookup` returns the most recent one.
* `hashlib.md5` digests are modelled injectively: a digest is represented by
  its preimage (wrapped in a dedicated type or constructor).  Collisions of
  md5 on the inputs the program feeds it are assumed not to occur.
* `await`/concurrency is sequentialised: the queue processor's provider
  interaction becomes an explicit parameter carrying the outcomes of the
  retry loop's provider calls.
-/

/-- First-match lookup in an association list (Python dict read; the most
recent binding is kept leftmost by `aset`). -/
def alookup {α β : Type} [DecidableEq α] : List (α × β) → α → Option β
  | [], _ => none
  | (a, b) :: t, k => if a = k then some b else alookup t k

/-- Python dict assignment `d[k] = v`: the new binding shadows any older one. -/
def aset {α β : Type} [DecidableEq α] (l : List (α × β)) (k : α) (v : β) :
    List (α × β) :=
  (k, v) :: l

/-- Python `needle in hay` on strings: contiguous-substring test. -/
def strContains (hay pat : String) : Bool := decide (pat.toList <:+: hay.toList)

/-- Python `str.upper()` (ASCII case mapping suffices for the program's
keyword tests). -/
def upperS (s : String) : String := ⟨s.toList.map Char.toUpper⟩

/-- Python `str.lower()`. -/
def lowerS (s : String) : String := ⟨s.toList.map Char.toLower⟩

/-- Python `str.split()` with no argument: split on whitespace runs,
discarding empty pieces.  `acc` holds the current word reversed. -/
def splitWSAux : List Char → List Char → List (List Char)
  | [], acc => if acc.isEmpty then [] else [acc.reverse]
  | c :: cs, acc =>
    if c.isWhitespace then
      if acc.isEmpty then splitWSAux cs [] else acc.reverse :: splitWSAux cs []
    else splitWSAux cs (c :: acc)

/-- Python `str.split()` on a string's characters. -/
def pysplit (cs : List Char) : List (List Char) := splitWSAux cs []

namespace EmbeddingQueueModel

/-- An md5 text-hash (`hashlib.md5(text.encode()).hexdigest()`), modelled by
its preimage; md5 is assumed collision-free on program inputs. -/
structure MD5 where
  val : String
deriving DecidableEq

/-- `hashlib.md5(text.encode()).hexdigest()` on a text. -/
def md5 (s : String) : MD5 := ⟨s⟩

/-- An embedding vector (Python `List[float]`, embedded over `ℚ`). -/
abbrev Vec := List ℚ

/-- A batch id.  In the source a batch id is
`md5(f"{datetime.now().isoformat()}_{len(texts)}")` (embedding_queue.py line
27).  The formatted string is injective in the pair (timestamp, length) —
the length renders as digits, so the final `_`-separated field is
unambiguous — and md5 is assumed collision-free, so the id is modelled as
the pair itself, with the timestamp abstracted to a `Nat`. -/
abbrev BatchId := Nat × Nat

/-- Batch-id generation of `add_batch` (line 27). -/
def mkBatchId (now : Nat) (nTexts : Nat) : BatchId := (now, nTexts)

/-- The four batch states of `self.batch_status` (line 22). -/
inductive BatchStatus
  | pending
  | processing
  | completed
  | failed
deriving DecidableEq

/-- An entry of `self.queue` (lines 56-62); `added_at` is dropped because no
code path reads it. -/
structure QueuedBatch where
  batch_id : BatchId
  texts : List String
  metadata : List String
  text_hashes : List MD5
deriving DecidableEq

/-- An entry of `self.batch_results` (lines 47-52). -/
structure BatchResult where
  text_hashes : List MD5
  total : Nat
  to_process : Nat
  cached : Nat
deriving DecidableEq

/-- The mutable state of an `EmbeddingQueue` object (lines 18-23).  The
`processing` single-flight flag is kept but never consulted by the model:
the processor loop is modelled as an explicit step function, so the flag's
only role (suppressing a second concurrent loop) has no observable effect
here. -/
structure QueueState where
  queue : List QueuedBatch
  processing : Bool
  cache : List (MD5 × Vec)
  batch_status : List (BatchId × BatchStatus)
  batch_results : List (BatchId × BatchResult)

/-- The freshly constructed queue (`EmbeddingQueue.__init__`). -/
def initState : QueueState := ⟨[], false, [], [], []⟩

/-- `add_batch` (lines 25-74).  `now` abstracts `datetime.now().isoformat()`.
The `asyncio.create_task(self._process_queue())` kick-off is concurrency
control; processing itself is the separate `processStep` below. -/
def add_batch (st : QueueState) (now : Nat) (texts : List String)
    (metadata : List String) : QueueState × BatchId :=
  let batch_id := mkBatchId now texts.length
  -- the loop `for text, meta in zip(texts, metadata)` (lines 35-43)
  let pairs := texts.zip metadata
  let text_hashes := pairs.map (fun p => md5 p.1)
  let uniquePairs := pairs.filter (fun p => (alookup st.cache (md5 p.1)).isNone)
  let unique_texts := uniquePairs.map (fun p => p.1)
  let unique_metadata := uniquePairs.map (fun p => p.2)
  let unique_hashes := uniquePairs.map (fun p => md5 p.1)
  let status1 := aset st.batch_status batch_id .pending
  let results1 := aset st.batch_results batch_id
    ⟨text_hashes, texts.length, unique_texts.length,
      texts.length - unique_texts.length⟩
  if unique_texts.isEmpty then
    -- lines 69-72: all texts already cached
    ({ st with batch_status := aset status1 batch_id .completed,
               batch_results := results1 }, batch_id)
  else
    -- lines 54-68: enqueue the uncached remainder
    ({ st with
        queue := st.queue ++ [⟨batch_id, unique_texts, unique_metadata, unique_hashes⟩],
        batch_status := status1,
        batch_results := results1 }, batch_id)

/-- The super-batch assembly loop of `_process_queue` (lines 128-159).
`cap` is `120 - len(batch_texts)`.  Returns the collected texts, metadata,
text-hashes, owning batch ids, and the remaining queue.  The source guards
the partial branch's id append with `not in batch_ids`; duplicate ids can
only arise from duplicate ids in the queue, and even then the guard's
absence is unobservable because every per-id action taken later is
idempotent, so the model appends unconditionally. -/
def collectLoop : Nat → List QueuedBatch →
    List String × List String × List MD5 × List BatchId × List QueuedBatch
  | _, [] => ([], [], [], [], [])
  | cap, b :: rest =>
    if cap = 0 then ([], [], [], [], b :: rest)
    else if b.texts.length ≤ cap then
      -- take the entire batch (lines 134-143)
      let r := collectLoop (cap - b.texts.length) rest
      (b.texts ++ r.1, b.metadata ++ r.2.1, b.text_hashes ++ r.2.2.1,
        b.batch_id :: r.2.2.2.1, r.2.2.2.2)
    else
      -- take a partial batch and stop (lines 144-159)
      (b.texts.take cap, b.metadata.take cap, b.text_hashes.take cap,
        [b.batch_id],
        { b with texts := b.texts.drop cap, metadata := b.metadata.drop cap,
                 text_hashes := b.text_hashes.drop cap } :: rest)

/-- Count of the strictly non-zero components
(`sum(1 for v in embedding if v != 0)`, line 175). -/
def nonZeroCount (e : Vec) : Nat := (e.filter (fun v => v ≠ 0)).length

/-- The queue processor's vector check
`non_zero_count > len(embedding) * 0.1` (line 176), stated in the
equivalent integer-scaled form `10 · count > len`.  `0.1` denotes the exact
rational 1/10 in the model; for an integer count compared against
`len * 0.1`, the double-precision evaluation of the source agrees with the
exact comparison (the rounding of `len * 0.1` never crosses an integer in
the direction that would flip the strict test). -/
def passesZeroCheck (e : Vec) : Bool :=
  decide (10 * nonZeroCount e > e.length)

/-- `_validate_embedding` of `app/core/embeddings.py` (lines 75-84); the
same check — emptiness plus the 10% non-zero floor — and, like the queue's
inline check, no dimensionality test. -/
def validate_embedding (e : Vec) : Bool :=
  if e.isEmpty then false else passesZeroCheck e

/-- The cache-write loop of `_process_queue` (lines 172-184): each returned
embedding is cached iff it is present (`embedding and len(embedding) > 0`)
and passes the non-zero check. -/
def cacheStep (cache : List (MD5 × Vec)) (pairs : List (MD5 × Option Vec)) :
    List (MD5 × Vec) :=
  pairs.foldl
    (fun c p =>
      match p.2 with
      | some e => if ¬e.isEmpty ∧ passesZeroCheck e then aset c p.1 e else c
      | none => c)
    cache

/-- `_is_batch_complete` (lines 255-273).  Note the per-hash loop: a hash
missing from the cache is excused whenever the batch-level pre-cached
*count* is positive (`batch_info.get('cached', 0) > 0`), regardless of
whether that particular hash was the pre-cached one. -/
def isBatchComplete (st : QueueState) (batch_id : BatchId) : Bool :=
  if st.queue.any (fun b => b.batch_id = batch_id) then false
  else
    let info := alookup st.batch_results batch_id
    let hashes := (info.map (fun i => i.text_hashes)).getD []
    let cached := (info.map (fun i => i.cached)).getD 0
    hashes.all (fun h => (alookup st.cache h).isSome || cached > 0)

/-- The outcomes of the provider calls made by one run of
`_generate_embeddings_with_retry` (lines 220-253): each attempt either
returns a list — `generate_batch_embeddings` catches provider errors
internally (embeddings.py lines 257-281) and yields `None` entries for the
texts that failed — modelled `some embs`, or raises, modelled `none`. -/
abbrev RetryAttempts := List (Option (List (Option Vec)))

/-- `_generate_embeddings_with_retry` (lines 220-253).  Its own
`except Exception` catches every raise of an attempt, retries, and after
the last failed attempt returns `[None] * len(texts)` (lines 248-253); a
successful attempt returns its list (line 239).  The function therefore
never raises — its result is always a list — so the `except Exception`
branch of `_process_queue` (lines 195-208), the only code that sets a
batch's status to `'failed'`, can never run. -/
def generateEmbeddingsWithRetry (nTexts : Nat) : RetryAttempts → List (Option Vec)
  | [] => List.replicate nTexts none
  | some embs :: _ => embs
  | none :: rest => generateEmbeddingsWithRetry nTexts rest

/-- One iteration of the `_process_queue` loop body (lines 120-214),
from super-batch assembly through status updates; the inter-batch sleeps
are not state.  The provider interaction is
`_generate_embeddings_with_retry`, which cannot raise (see above), so the
dead `except` branch at lines 195-208 has no counterpart here and no step
ever writes the `'failed'` status. -/
def processStep (st : QueueState) (attempts : RetryAttempts) : QueueState :=
  let c := collectLoop 120 st.queue
  let batch_texts := c.1
  let batch_hashes := c.2.2.1
  let batch_ids := c.2.2.2.1
  let queue' := c.2.2.2.2
  -- status assignments made during assembly (lines 143, 157)
  let status1 := batch_ids.foldl (fun s i => aset s i .processing) st.batch_status
  let st0 : QueueState := { st with queue := queue', batch_status := status1 }
  if batch_texts.isEmpty then st0
  else
    -- lines 166-193
    let embeddings := generateEmbeddingsWithRetry batch_texts.length attempts
    let cache' := cacheStep st.cache (batch_hashes.zip embeddings)
    let st1 : QueueState := { st0 with cache := cache' }
    -- `_is_batch_complete` reads queue, cache and batch_results, none of
    -- which change while the status-update loop runs (lines 188-193)
    let status2 := batch_ids.foldl
      (fun s i => if isBatchComplete st1 i then aset s i .completed else s)
      status1
    { st1 with batch_status := status2 }

/-- The queue states reachable from a fresh queue by submissions and
processor iterations. -/
inductive Reachable : QueueState → Prop
  | init : Reachable initState
  | add (st : QueueState) (now : Nat) (texts metas : List String) :
      Reachable st → Reachable (add_batch st now texts metas).1
  | step (st : QueueState) (attempts : RetryAttempts) :
      Reachable st → Reachable (processStep st attempts)

/-- `settings.EMBEDDING_DIMENSIONS` (app/core/config.py line 31). -/
def EMBEDDING_DIMENSIONS : Nat := 1024

/-- Every cached vector is non-empty and passes the 10% non-zero check —
the property the cache-write loop actually enforces. -/
def cacheValidInv (st : QueueState) : Prop :=
  ∀ h e, alookup st.cache h = some e → e.isEmpty = false ∧ passesZeroCheck e = true

/-! Concrete queue traces used by the theorems below. -/

/-- Submit `["a"]` to a fresh queue at time 0. -/
def stSubA : QueueState := (add_batch initState 0 ["a"] ["m"]).1

/-- … the provider then returns a valid vector for `"a"`. -/
def stDoneA : QueueState := processStep stSubA [some [some [1, 1]]]

/-- … then submit `["a", "b"]` (so `"a"` is pre-completed, `cached = 1`). -/
def stSubAB : QueueState := (add_batch stDoneA 1 ["a", "b"] ["m", "m"]).1

/-- … and the provider returns an all-zero vector for `"b"`. -/
def stZeroB : QueueState := processStep stSubAB [some [some [0, 0]]]

/-- Submit `["x"]` to a fresh queue at time 0. -/
def stSubX : QueueState := (add_batch initState 0 ["x"] ["m"]).1

/-- … the provider returns a one-component vector for `"x"`. -/
def stShortVec : QueueState := processStep stSubX [some [some [1]]]

/-- A queue state whose cache already holds a vector for `"a"`. -/
def stCachedA : QueueState := ⟨[], false, [(md5 "a", [1, 1])], [], []⟩

end EmbeddingQueueModel

namespace SqlGeneratorModel

/-- The blocked keywords of `_validate_sql`
(app/services/sql_generator.py line 675). -/
def dangerous_keywords : List String :=
  ["DROP", "DELETE", "TRUNCATE", "ALTER", "CREATE", "INSERT", "UPDATE"]

/-- Lines 676-680: `keyword in sql_upper` for any dangerous keyword. -/
def containsDangerousKeyword (sql : String) : Bool :=
  dangerous_keywords.any (fun k => strContains (upperS sql) k)

/-- A regex `\w` character. -/
def isWordChar (c : Char) : Bool := c.isAlphanum || c == '_'

/-- Case-insensitive literal match of `kw` at the head of `cs`. -/
def matchCI : List Char → List Char → Bool
  | [], _ => true
  | _ :: _, [] => false
  | k :: ks, c :: cs => k.toLower == c.toLower && matchCI ks cs

/-- Python `str.strip()`. -/
def pyStrip (s : String) : String :=
  ⟨((s.toList.dropWhile Char.isWhitespace).reverse.dropWhile Char.isWhitespace).reverse⟩

/-- Python `str.rstrip(';')`. -/
def pyRstripSemi (s : String) : String :=
  ⟨(s.toList.reverse.dropWhile (fun c => c == ';')).reverse⟩

/-- One `re.sub(r'\bKW\s+(\w+)', f'KW {schema}.\1', sql, flags=IGNORECASE)`
pass (lines 688-700): scan left to right; at a word boundary, a
case-insensitive `KW` followed by one-plus whitespace and a `\w+`
identifier rewrites to `KW schema.ident` (the replacement text carries the
keyword in its source spelling), and the scan resumes after the match;
otherwise the scan advances one character.  `prevWord` tracks whether the
previous character was a word character (the `\b` test); `fuel` bounds the
recursion and never runs out when it starts at the character count, since
every step consumes at least one character. -/
def subKwAux (kw : List Char) (schema : List Char) :
    Nat → Bool → List Char → List Char
  | 0, _, cs => cs
  | _ + 1, _, [] => []
  | fuel + 1, prevWord, c :: cs =>
    if prevWord || !matchCI kw (c :: cs) then
      c :: subKwAux kw schema fuel (isWordChar c) cs
    else
      let rest := (c :: cs).drop kw.length
      let ws := rest.takeWhile (fun ch => ch.isWhitespace)
      let rest2 := rest.drop ws.length
      let ident := rest2.takeWhile isWordChar
      if ws.isEmpty || ident.isEmpty then
        c :: subKwAux kw schema fuel (isWordChar c) cs
      else
        kw ++ [' '] ++ schema ++ ['.'] ++ ident ++
          subKwAux kw schema fuel true (rest2.drop ident.length)

/-- The schema-qualification rewrite for one keyword. -/
def subKw (kw : String) (schema : String) (sql : String) : String :=
  ⟨subKwAux kw.toList schema.toList sql.toList.length false sql.toList⟩

/-- `_validate_sql` (lines 661-706; the class also carries an earlier
shadowed definition at lines 518-556 with the same try/except shape).
The body raises `ValueError` for empty or dangerous SQL, but the enclosing
`except Exception` (lines 702-706) catches exactly those errors and
returns the original SQL unchanged; on the non-raising path the FROM/JOIN
references are schema-qualified when the SQL does not already mention
`schema.`. -/
def validate_sql (sql schema : String) : String :=
  if (pyStrip sql).isEmpty then sql
  else if containsDangerousKeyword sql then sql
  else if !strContains sql (schema ++ ".") && strContains (upperS sql) "FROM" then
    subKw "JOIN" schema (subKw "FROM" schema sql)
  else sql

/-- The SQL string `execute_sql` (lines 777-811) actually sends to the
database: a safety LIMIT is appended when absent; no dangerous-keyword
check happens on this path. -/
def executeSqlText (sql : String) (limit : Nat) : String :=
  if strContains (upperS sql) "LIMIT" then sql
  else pyRstripSemi sql ++ " LIMIT " ++ toString limit ++ ";"

end SqlGeneratorModel

namespace SearchQueryModel

/-- A metadata filter value as discriminated by `_build_hybrid_search_query`
(app/services/search_service.py lines 217-230): a string, a number, or a
dict of optional `gte` / `lte` / `contains` entries.  Numeric values are
modelled as integers (the source also admits floats; only the rendering of
the literal differs). -/
inductive FilterValue
  | str (s : String)
  | num (v : Int)
  | dict (gte : Option Int) (lte : Option Int) (containsVal : Option String)
deriving DecidableEq

/-- A single-quote character, written by code point. -/
def sq : String := ⟨[Char.ofNat 39]⟩

/-- The `AND` clause one filter entry appends (lines 218-230). -/
def filterClause (key : String) (v : FilterValue) : String :=
  match v with
  | .str s =>
    " AND e.metadata->" ++ sq ++ key ++ sq ++ " = " ++ sq ++ "\"" ++ s ++ "\"" ++ sq
  | .num n =>
    " AND (e.metadata->" ++ sq ++ key ++ sq ++ ")::numeric = " ++ toString n
  | .dict gte lte containsVal =>
    (match gte with
     | some g => " AND (e.metadata->" ++ sq ++ key ++ sq ++ ")::numeric >= " ++ toString g
     | none => "") ++
    (match lte with
     | some l => " AND (e.metadata->" ++ sq ++ key ++ sq ++ ")::numeric <= " ++ toString l
     | none => "") ++
    (match containsVal with
     | some c => " AND e.metadata->" ++ sq ++ key ++ sq ++ " ILIKE " ++ sq ++ "%" ++ c ++ "%" ++ sq
     | none => "")

/-- Replace every occurrence of `pat` in the scanned list by `repl`,
left to right, non-overlapping (the behaviour of `str.format` on the
single `{schema}` field the builder uses; format fields other than
`schema` would make the Python raise and are not modelled).  `fuel`
bounds the recursion and never runs out starting from the character
count. -/
def replaceAllAux (pat repl : List Char) : Nat → List Char → List Char
  | 0, cs => cs
  | _ + 1, [] => []
  | fuel + 1, c :: cs =>
    if !pat.isEmpty && decide (pat <+: (c :: cs)) then
      repl ++ replaceAllAux pat repl fuel ((c :: cs).drop pat.length)
    else
      c :: replaceAllAux pat repl fuel cs

/-- `base_query.format(schema=schema)` (line 238). -/
def formatSchema (s schema : String) : String :=
  ⟨replaceAllAux "{schema}".toList schema.toList s.toList.length s.toList⟩

/-- The fixed head of the query (lines 196-207), with the `{schema}`
format field still unsubstituted. -/
def baseText : String :=
  "\n            SELECT \n                e.id,\n                e.schema_name,\n                e.table_name,\n                e.content,\n                e.metadata,\n                e.created_at,\n                1 - (e.embedding <=> $1::vector) as similarity\n            FROM atabot.embeddings e\n            WHERE e.schema_name = "
  ++ sq ++ "{schema}" ++ sq ++ "\n        "

/-- `_build_hybrid_search_query` (lines 185-238).  Note that filter values
are rendered into the SQL text by f-strings; only the query embedding
(`$1`) and the similarity threshold (`$2`) are bound parameters. -/
def build_hybrid_search_query (schema : String) (table : Option String)
    (filters : List (String × FilterValue)) (limit : Nat) : String :=
  let q := baseText
  let q := match table with
    | some t => q ++ " AND e.table_name = " ++ sq ++ t ++ sq
    | none => q
  let q := q ++ " AND 1 - (e.embedding <=> $1::vector) >= $2"
  let q := q ++ String.join (filters.map (fun p => filterClause p.1 p.2))
  let q := q ++ "\n            ORDER BY similarity DESC\n            LIMIT "
    ++ toString limit ++ "\n        "
  formatSchema q schema

end SearchQueryModel

namespace AggregationModel

/-- A stored row of `atabot.embeddings` as the aggregation queries read it
(id, names, content, jsonb metadata).  Metadata values are carried in
their `->>` text rendering; an absent key reads as SQL NULL. -/
structure EmbRow where
  id : String
  schema_name : String
  table_name : String
  content : String
  metadata : List (String × String)
deriving DecidableEq

/-- The regex `^[0-9.]+$` of the stock filter
(app/services/search_service.py line 657). -/
def isNumericText (s : String) : Bool :=
  !s.toList.isEmpty && s.toList.all (fun c => c.isDigit || c == '.')

/-- Digits to a natural number. -/
def digitsToNat (l : List Char) : Nat :=
  l.foldl (fun a c => a * 10 + (c.toNat - 48)) 0

/-- The `::numeric` cast of a `[0-9.]+` string: `some` of its value for
digits with at most one dot and at least one digit, `none` when the cast
would make PostgreSQL raise (e.g. `"1.2.3"` or `"."`, which pass the
source's regex but are not numeric literals). -/
def parseNumeric (s : String) : Option ℚ :=
  let cs := s.toList
  if cs.isEmpty then none
  else if cs.all Char.isDigit then some (digitsToNat cs : ℚ)
  else
    let intPart := cs.takeWhile (fun c => c ≠ '.')
    let rest := cs.drop (intPart.length + 1)
    if cs.count '.' = 1 ∧ intPart.all Char.isDigit ∧ rest.all Char.isDigit ∧
        !(intPart.isEmpty && rest.isEmpty) then
      some ((digitsToNat intPart : ℚ) + (digitsToNat rest : ℚ) / ((10 : ℚ) ^ rest.length))
    else none

/-- `e.metadata->>'im_stock'`. -/
def stockText (r : EmbRow) : Option String := alookup r.metadata "im_stock"

/-- The WHERE conditions on the stock value (lines 656-658):
present, numeric-shaped, and positive. -/
def stockOk (r : EmbRow) : Bool :=
  match stockText r with
  | none => false
  | some s =>
    isNumericText s &&
      (match parseNumeric s with
       | some q => decide (q > 0)
       | none => false)

/-- The numeric stock value used by `ORDER BY` (0 when ill-formed, which
the filter has already excluded). -/
def stockQ (r : EmbRow) : ℚ := ((stockText r).bind parseNumeric).getD 0

/-- The row filter of the highest-stock query (lines 655-668):
schema match, stock conditions, optional table match. -/
def rowMatches (schema : String) (table : Option String) (r : EmbRow) : Bool :=
  r.schema_name == schema && stockOk r &&
    (match table with
     | some t => r.table_name == t
     | none => true)

/-- The rows the query's scan touches: schema (and optional table)
match. -/
def inScope (schema : String) (table : Option String) (r : EmbRow) : Bool :=
  r.schema_name == schema &&
    (match table with
     | some t => r.table_name == t
     | none => true)

/-- A scanned row on which the `::numeric` cast raises: its `im_stock`
text passes the regex `^[0-9.]+$` but is not a valid numeric literal. -/
def stockCastRaises (r : EmbRow) : Bool :=
  match stockText r with
  | none => false
  | some s => isNumericText s && (parseNumeric s).isNone

/-- Insertion sort by a boolean preorder — the model of SQL `ORDER BY`
(the order among equal keys is unspecified in SQL; the model fixes the
stable one). -/
def insertSorted {α : Type} (le : α → α → Bool) (a : α) : List α → List α
  | [] => [a]
  | b :: bs => if le a b then a :: b :: bs else b :: insertSorted le a bs

/-- Sort by a boolean preorder. -/
def sortByB {α : Type} (le : α → α → Bool) : List α → List α
  | [] => []
  | x :: xs => insertSorted le x (sortByB le xs)

/-- Descending stock comparison (`ORDER BY (…)::numeric DESC`, line 669). -/
def stockGe (a b : EmbRow) : Bool := decide (stockQ a ≥ stockQ b)

/-- `_get_highest_stock_items` (lines 633-718): filter, order by stock
descending, LIMIT `top_k`, then score each row `1.0 - i*0.05` by rank.
The constant `0.95 as similarity` column and the `source` attachment do
not bear on the claims; the result carries each row with its score.
When any scanned row's `im_stock` passes the regex but fails the
`::numeric` cast, the whole query raises, the `except` at lines 716-718
catches the database error, and the handler returns `[]` (so
`hybrid_search` falls through).  The cast is modelled as evaluated on the
schema/table-matching rows; SQL fixes no evaluation order for WHERE
conjuncts, but the textual order — regex before cast — shields rows whose
text fails the regex. -/
def getHighestStockItems (store : List EmbRow) (schema : String)
    (table : Option String) (topk : Nat) : List (EmbRow × ℚ) :=
  if (store.filter (inScope schema table)).any stockCastRaises then []
  else
    let rows := (sortByB stockGe (store.filter (rowMatches schema table))).take topk
    rows.enum.map (fun p => (p.2, 1 - (p.1 : ℚ) * (1 / 20)))

/-- `_get_lowest_stock_items` (lines 720-723): a placeholder returning an
empty list. -/
def getLowestStockItems (_store : List EmbRow) (_schema : String)
    (_table : Option String) (_topk : Nat) : List (EmbRow × ℚ) := []

/-- `_get_highest_price_items` (lines 725-727): placeholder, empty list. -/
def getHighestPriceItems (_store : List EmbRow) (_schema : String)
    (_table : Option String) (_topk : Nat) : List (EmbRow × ℚ) := []

/-- `_get_lowest_price_items` (lines 729-731): placeholder, empty list. -/
def getLowestPriceItems (_store : List EmbRow) (_schema : String)
    (_table : Option String) (_topk : Nat) : List (EmbRow × ℚ) := []

/-- The four superlative pattern groups (lines 599-607). -/
inductive SuperlativeType
  | highest_stock
  | lowest_stock
  | highest_price
  | lowest_price
deriving DecidableEq

/-- The pattern table of `_handle_aggregation_query` (lines 599-607),
in source order. -/
def superlative_patterns : List (SuperlativeType × List String) :=
  [(.highest_stock,
     ["stok paling banyak", "stok terbanyak", "stok tertinggi", "paling banyak stok"]),
   (.lowest_stock, ["stok paling sedikit", "stok terendah", "stok paling rendah"]),
   (.highest_price, ["harga tertinggi", "harga paling mahal", "paling mahal"]),
   (.lowest_price, ["harga terendah", "harga paling murah", "paling murah"])]

/-- Pattern detection (lines 609-617): first group with a matching
substring of the lower-cased query. -/
def detectPattern (q : String) : Option SuperlativeType :=
  (superlative_patterns.find?
    (fun p => p.2.any (fun pat => strContains (lowerS q) pat))).map (fun p => p.1)

/-- `_handle_aggregation_query` (lines 586-631): `none` when no
superlative pattern matches, otherwise the matching handler's rows. -/
def handle_aggregation_query (store : List EmbRow) (q schema : String)
    (table : Option String) (topk : Nat) : Option (List (EmbRow × ℚ)) :=
  match detectPattern q with
  | none => none
  | some .highest_stock => some (getHighestStockItems store schema table topk)
  | some .lowest_stock => some (getLowestStockItems store schema table topk)
  | some .highest_price => some (getHighestPriceItems store schema table topk)
  | some .lowest_price => some (getLowestPriceItems store schema table topk)

/-- Which phase answers a `hybrid_search` call first (lines 48-55):
a truthy aggregation result returns immediately — before any embedding is
requested from the provider; `None` or `[]` falls through to the keyword
fallback and the vector phase (collapsed here into one outcome, in which
an embedding request may occur). -/
inductive SearchOutcome
  | aggregation (results : List (EmbRow × ℚ))
  | fallbackOrVector
deriving DecidableEq

/-- The aggregation short-circuit at the head of `hybrid_search`
(lines 48-55). -/
def hybridRoute (store : List EmbRow) (q schema : String)
    (table : Option String) (topk : Nat) : SearchOutcome :=
  match handle_aggregation_query store q schema table topk with
  | some rs => if rs.isEmpty then .fallbackOrVector else .aggregation rs
  | none => .fallbackOrVector

/-- A three-row store with stocks 5, 42 and 17 (the spec's aggregation
scenario). -/
def store3 : List EmbRow :=
  [⟨"r1", "s", "items", "item one", [("im_stock", "5")]⟩,
   ⟨"r2", "s", "items", "item two", [("im_stock", "42")]⟩,
   ⟨"r3", "s", "items", "item three", [("im_stock", "17")]⟩]

end AggregationModel

namespace ContentBoostModel

/-- Python `term in content` on character lists. -/
def containsL (hay pat : List Char) : Bool := decide (pat <:+: hay)

/-- `' '.join(query_terms)` (line 266). -/
def joinSp (ws : List (List Char)) : List Char := List.intercalate [' '] ws

/-- The matching loop of `_calculate_content_boost`
(app/services/search_service.py lines 254-279) over the filtered query
terms, folding the state `(exact_matches, partial_matches,
sequence_bonus)`.  The exact branch may set the sequence bonus when the
space-join of *all* query terms occurs in the content; the partial branch
adds `0.7` when the term occurs inside some content word. -/
def boostLoop (cl : List Char) (terms : List (List Char)) : Nat × ℚ × ℚ :=
  terms.foldl
    (fun st t =>
      if containsL cl t then
        (st.1 + 1, st.2.1,
          if terms.length > 1 && containsL cl (joinSp terms) then (3 / 10 : ℚ) else st.2.2)
      else
        if (pysplit cl).any (fun w => containsL w t && decide (t.length ≥ 2)) then
          (st.1, st.2.1 + 7 / 10, st.2.2)
        else st)
    (0, 0, 0)

/-- `_calculate_content_boost` (lines 240-296). -/
def calculate_content_boost (query content : String) : ℚ :=
  if content.isEmpty then 0
  else
    let ql := (lowerS query).toList
    let cl := (lowerS content).toList
    let terms := (pysplit ql).filter (fun t => t.length > 2)
    let r := boostLoop cl terms
    let total := terms.length
    if total = 0 then 0
    else min ((r.1 : ℚ) / total * 1 + r.2.1 / total * (6 / 10) + r.2.2) 1

/-- The final score assembled on the vector path
(line 143): `score = vector_score * 0.7 + content_boost * 0.3`. -/
def resultScore (vector_score : ℚ) (query content : String) : ℚ :=
  vector_score * (7 / 10) + calculate_content_boost query content * (3 / 10)

/-- `t1` occurs in `cs` with an occurrence of `t2` somewhere after it. -/
def inOrderB (cs t1 t2 : List Char) : Bool :=
  (List.range (cs.length + 1)).any
    (fun k => decide (t1 <+: cs.drop k) && containsL ((cs.drop k).drop t1.length) t2)

/-- Modelled from the claim text (the refinement target, not the source):
content boost = exact-term hit fraction, plus the partial-word hit
fraction at half the exact weight, plus a 0.3 sequence bonus exactly when
the first two query terms appear in order in the content; capped at 1.0.
Tokenisation and the empty-content guard follow the source, which the
claim leaves implicit. -/
def claimedContentBoost (query content : String) : ℚ :=
  if content.isEmpty then 0
  else
    let ql := (lowerS query).toList
    let cl := (lowerS content).toList
    let terms := (pysplit ql).filter (fun t => t.length > 2)
    let total := terms.length
    if total = 0 then 0
    else
      let exact := (terms.filter (fun t => containsL cl t)).length
      let partialHits := (terms.filter
        (fun t => !containsL cl t && (pysplit cl).any (fun w => containsL w t))).length
      let seq : ℚ := match terms with
        | t1 :: t2 :: _ => if inOrderB cl t1 t2 then 3 / 10 else 0
        | _ => 0
      min ((exact : ℚ) / total + (1 / 2) * ((partialHits : ℚ) / total) + seq) 1

/-- The closed form the source actually computes (proved equal to
`calculate_content_boost` below): exact-hit fraction plus a 0.3 sequence
bonus granted exactly when some term occurs in the content, there are at
least two terms, and the space-join of all terms occurs contiguously in
the content; capped at 1.0.  The partial-word component is provably always
zero. -/
def boostClosed (query content : String) : ℚ :=
  if content.isEmpty then 0
  else
    let ql := (lowerS query).toList
    let cl := (lowerS content).toList
    let terms := (pysplit ql).filter (fun t => t.length > 2)
    let total := terms.length
    if total = 0 then 0
    else
      let exact := (terms.filter (fun t => containsL cl t)).length
      let seq : ℚ :=
        if terms.length > 1 && containsL cl (joinSp terms) && terms.any (containsL cl) then
          3 / 10
        else 0
      min ((exact : ℚ) / total * 1 + seq) 1

end ContentBoostModel

namespace SyncIdModel

/-- A stored embedding identifier.  Identifiers are plain strings in the
source; an md5 digest is modelled by its preimage under the `md5hex`
constructor (md5 assumed collision-free, and digests — 32 hex characters —
assumed distinct from the program's f-string identifiers). -/
inductive RowId
  | plain (s : String)
  | md5hex (preimage : String)
deriving DecidableEq

/-- A database row: column name to the `str()` rendering of its value,
`none` for SQL NULL. -/
abbrev Row := List (String × Option String)

/-- Python `str(value)` with `None` rendering as `"None"` (as an f-string
interpolates it). -/
def pyStr (v : Option String) : String := v.getD "None"

/-- The identifier derivation of `_process_batch`
(app/services/sync_service.py lines 437-452): when `_get_primary_key`
found a column and the row carries it, `f"{schema}_{table}_{row[pk]}"`;
otherwise `md5(f"{schema}_{table}_{text}")` over the rendered searchable
text.  An empty-string `pk_column` is falsy in `if pk_column and …`. -/
def processBatchRowId (schema table : String) (pk : Option String)
    (row : Row) (text : String) : RowId :=
  let fallback := RowId.md5hex (schema ++ "_" ++ table ++ "_" ++ text)
  match pk with
  | none => fallback
  | some p =>
    if p = "" then fallback
    else
      match alookup row p with
      | some v => .plain (schema ++ "_" ++ table ++ "_" ++ pyStr v)
      | none => fallback

/-- The primary-key candidates of `_extract_row_id` (line 1102). -/
def pk_candidates : List String := ["id", "uuid", "guid", "primary_id"]

/-- Python `str.endswith(pat)`. -/
def endsWithS (s pat : String) : Bool := decide (pat.toList <:+ s.toList)

/-- `json.dumps(row, sort_keys=True, default=str)` (line 1114), modelled as
a canonical key-sorted rendering (string escaping is not modelled; the
claims use escape-free values).  Only its role as a distinct md5 preimage
matters. -/
def jsonDumpSorted (row : Row) : String :=
  let sorted := sortByList row
  "\x7b" ++ String.intercalate ", "
    (sorted.map (fun p =>
      "\"" ++ p.1 ++ "\": " ++
        (match p.2 with
         | some v => "\"" ++ v ++ "\""
         | none => "null"))) ++ "\x7d"
where
  /-- key-sorted copy of the row (insertion sort on string keys). -/
  sortByList (l : Row) : Row :=
    let le := fun (a b : String × Option String) => decide (a.1 ≤ b.1)
    let rec ins (a : String × Option String) : Row → Row
      | [] => [a]
      | b :: bs => if le a b then a :: b :: bs else b :: ins a bs
    let rec srt : Row → Row
      | [] => []
      | x :: xs => ins x (srt xs)
    srt l

/-- `col in row and row[col] is not None` for a candidate column
(lines 1104-1106). -/
def isPkCandidateHit (row : Row) (c : String) : Bool :=
  match alookup row c with
  | some (some _) => true
  | _ => false

/-- `_extract_row_id` (lines 1097-1115): the bare `str(value)` of the first
present, non-null candidate column (`id`, `uuid`, `guid`, `primary_id`),
else the first non-null `*_id` / `*_uuid` column, else the md5 of the
key-sorted JSON dump of the whole row.  No schema or table prefix is
applied on this path. -/
def extract_row_id (row : Row) : RowId :=
  match pk_candidates.find? (isPkCandidateHit row) with
  | some c => .plain (pyStr ((alookup row c).getD none))
  | none =>
    match row.find? (fun p =>
        p.2.isSome && (endsWithS p.1 "_id" || endsWithS p.1 "_uuid")) with
    | some p => .plain (pyStr p.2)
    | none => .md5hex (jsonDumpSorted row)

end SyncIdModel

namespace SimilarityModel

/-- `sum(a * b for a, b in zip(embedding1, embedding2))` (line 388). -/
noncomputable def dotSum (e1 e2 : List ℝ) : ℝ :=
  ((e1.zip e2).map (fun p => p.1 * p.2)).sum

/-- `sum(a * a for a in e) ** 0.5` (lines 389-390), with float arithmetic
embedded as real arithmetic. -/
noncomputable def pyNorm (e : List ℝ) : ℝ :=
  Real.sqrt ((e.map (fun a => a * a)).sum)

/-- `calculate_similarity` of `app/core/embeddings.py` (lines 373-395).
Python floats are embedded as reals; a division whose divisor is zero
would raise `ZeroDivisionError`, modelled as `none`. -/
noncomputable def calculate_similarity (e1 e2 : List ℝ) : Option ℝ :=
  if e1.isEmpty || e2.isEmpty then some 0
  else
    let dp := dotSum e1 e2
    let n1 := pyNorm e1
    let n2 := pyNorm e2
    if _h : n1 = 0 ∨ n2 = 0 then some 0
    else if _h2 : n1 * n2 = 0 then none
    else some (dp / (n1 * n2))

end SimilarityModel

/-! ## Theorems -/

theorem alookup_aset_self {α β : Type} [DecidableEq α]
    (l : List (α × β)) (k : α) (v : β) : alookup (aset l k v) k = some v := by
  simp [aset, alookup]

theorem alookup_aset_ne {α β : Type} [DecidableEq α]
    (l : List (α × β)) (k k' : α) (v : β) (h : k ≠ k') :
    alookup (aset l k v) k' = alookup l k' := by
  simp [aset, alookup, h]

theorem filter_zip_fst {α β : Type} (c : α → Bool) (xs : List α) (ys : List β)
    (h : xs.length ≤ ys.length) :
    ((xs.zip ys).filter (fun p => c p.1)).map (fun p => p.1) = xs.filter c := by
  induction xs generalizing ys with
  | nil => simp
  | cons x xs ih =>
    cases ys with
    | nil => simp at h
    | cons y ys =>
      simp only [List.zip_cons_cons, List.filter_cons]
      by_cases hc : c x
      · simp only [hc, if_pos, List.map_cons]
        rw [ih ys (Nat.le_of_succ_le_succ h)]
      · simp only [hc, Bool.false_eq_true, if_false]
        rw [ih ys (Nat.le_of_succ_le_succ h)]

/-- Every word `str.split()` produces is a contiguous substring of the
split string. -/
theorem splitWSAux_mem_infix (cs : List Char) :
    ∀ acc w, w ∈ splitWSAux cs acc → w <:+: (acc.reverse ++ cs) := by
  induction cs with
  | nil =>
    intro acc w hw
    rw [splitWSAux] at hw
    split_ifs at hw with hacc
    · simp at hw
    · simp only [List.mem_singleton] at hw
      subst hw
      exact ⟨[], [], by simp⟩
  | cons c cs ih =>
    intro acc w hw
    rw [splitWSAux] at hw
    split_ifs at hw with hws hacc
    · have h := ih [] w hw
      simp only [List.reverse_nil, List.nil_append] at h
      exact h.trans ⟨acc.reverse ++ [c], [], by simp⟩
    · rcases List.mem_cons.mp hw with h | h
      · subst h
        exact ⟨[], c :: cs, by simp⟩
      · have h2 := ih [] w h
        simp only [List.reverse_nil, List.nil_append] at h2
        exact h2.trans ⟨acc.reverse ++ [c], [], by simp⟩
    · have h := ih (c :: acc) w hw
      rw [List.reverse_cons, List.append_assoc] at h
      simpa using h

namespace EmbeddingQueueModel

set_option maxRecDepth 8000 in
/-- **C1.**  The claim — a batch with a manifest hash that is neither
cached nor pre-completed at submit time is never marked completed — is
what the source intends but not what it computes.  Submit `["a"]` and let
it complete; submit `["a", "b"]` (so the pre-cached count is 1); the
provider returns an all-zero vector for `"b"`, which is rejected and never
cached.  `_is_batch_complete` nevertheless excuses the missing hash
`md5 "b"` because the batch-level `cached` count is positive — the loop's
own comment says "check if *this* was originally cached", but the data
recorded at submit time cannot distinguish which hashes those were — and
the batch is marked completed, although `md5 "b"` is not cached afterwards
and was not cached at submit time. -/
theorem c1_batch_completed_with_missing_hash :
    alookup stZeroB.batch_status (mkBatchId 1 2) = some .completed ∧
    alookup stZeroB.cache (md5 "b") = none ∧
    alookup stDoneA.cache (md5 "b") = none := by
  decide

/-- **C2, counterexample.**  Submit `["x"]`; the provider returns the
one-component vector `[1]`.  Although its length differs from the
configured dimensionality `D = 1024`, the processor caches it: neither the
queue's inline check nor `_validate_embedding` tests the length. -/
theorem c2_wrong_dimension_vector_cached :
    alookup stShortVec.cache (md5 "x") = some [1] ∧
    ([(1 : ℚ)] : Vec).length ≠ EMBEDDING_DIMENSIONS ∧
    validate_embedding [1] = true := by
  decide

/-- The cache-write loop only ever inserts vectors that are non-empty and
pass the 10% non-zero check. -/
theorem cacheStep_preserves (c : List (MD5 × Vec)) (pairs : List (MD5 × Option Vec))
    (hc : ∀ h e, alookup c h = some e → e.isEmpty = false ∧ passesZeroCheck e = true) :
    ∀ h e, alookup (cacheStep c pairs) h = some e →
      e.isEmpty = false ∧ passesZeroCheck e = true := by
  induction pairs generalizing c with
  | nil => exact hc
  | cons p ps ih =>
    rcases p with ⟨ph, pv⟩
    refine ih _ ?_
    intro h e hhe
    cases pv with
    | none => exact hc h e hhe
    | some v =>
      simp only at hhe
      split_ifs at hhe with hcond
      · by_cases hk : ph = h
        · subst hk
          rw [alookup_aset_self] at hhe
          cases hhe
          exact ⟨Bool.eq_false_iff.mpr hcond.1, hcond.2⟩
        · rw [alookup_aset_ne _ _ _ _ hk] at hhe
          exact hc h e hhe
      · exact hc h e hhe

/-- **C2, amended.**  What the processor actually enforces: a returned
vector is written to the queue's cache only if it is non-empty and more
than a tenth of its components are non-zero; there is no dimensionality
check on this path.  Formally: both a processor step and `add_batch`
preserve the invariant that every cached vector is non-empty and passes
the non-zero check. -/
theorem c2_cache_write_validation (st : QueueState) (attempts : RetryAttempts)
    (now : Nat) (texts metas : List String)
    (hinv : cacheValidInv st) :
    cacheValidInv (processStep st attempts) ∧
    cacheValidInv (add_batch st now texts metas).1 := by
  constructor
  · intro h e hhe
    simp only [processStep] at hhe
    split_ifs at hhe with hempty
    · exact hinv h e hhe
    · exact cacheStep_preserves st.cache _ hinv h e hhe
  · intro h e hhe
    simp only [add_batch] at hhe
    split_ifs at hhe <;> exact hinv h e hhe

/-- Witness for the amended C2 theorem: a processor step over a concretely
submitted text, starting from the fresh queue, keeps the cache
invariant. -/
theorem c2_cache_write_validation_witness :
    cacheValidInv (processStep (add_batch initState 0 ["x"] ["m"]).1
      [some [some [1], some [0, 0]]]) := by
  have hbase : cacheValidInv (add_batch initState 0 ["x"] ["m"]).1 :=
    (c2_cache_write_validation initState [] 0 ["x"] ["m"]
      (by intro h e hhe; simp [initState, alookup] at hhe)).2
  exact (c2_cache_write_validation (add_batch initState 0 ["x"] ["m"]).1
    [some [some [1], some [0, 0]]] 0 [] [] hbase).1

set_option maxRecDepth 100000 in
/-- A status assignment with a non-`failed` value never yields a `failed`
lookup if none existed before. -/
theorem alookup_aset_notFailed (s : List (BatchId × BatchStatus)) (k : BatchId)
    (v : BatchStatus) (hv : v ≠ .failed)
    (h0 : ∀ b, alookup s b ≠ some .failed) :
    ∀ b, alookup (aset s k v) b ≠ some .failed := by
  intro b
  by_cases hk : k = b
  · subst hk
    rw [alookup_aset_self]
    intro hc
    exact hv (Option.some.inj hc)
  · rw [alookup_aset_ne _ _ _ _ hk]
    exact h0 b

/-- A fold of status updates none of which writes `failed` never creates
a `failed` entry. -/
theorem alookup_foldl_notFailed
    (step : List (BatchId × BatchStatus) → BatchId → List (BatchId × BatchStatus))
    (hstep : ∀ s i, (∀ b, alookup s b ≠ some .failed) →
      ∀ b, alookup (step s i) b ≠ some .failed)
    (ids : List BatchId) :
    ∀ s0, (∀ b, alookup s0 b ≠ some .failed) →
      ∀ b, alookup (ids.foldl step s0) b ≠ some .failed := by
  induction ids with
  | nil => intro s0 h0; exact h0
  | cons i is ih =>
    intro s0 h0
    simp only [List.foldl_cons]
    exact ih (step s0 i) (hstep s0 i h0)

/-- **C5.**  Once a batch's state is `'failed'` it never changes — and in
fact the antecedent never arises.  The only assignment of `'failed'`
(embedding_queue.py line 200) sits in `_process_queue`'s
`except Exception` branch (lines 195-208), which is unreachable:
`_generate_embeddings_with_retry` catches every exception of its provider
calls itself and returns `[None] * len(texts)` instead of raising, and
`generate_batch_embeddings` catches internally as well.  Formally, no
reachable queue state has any batch in state `'failed'` — submissions
write `pending`/`completed`, processor steps write
`processing`/`completed` — so the claimed terminality holds over every
execution, its antecedent never being satisfied. -/
theorem c5_no_batch_ever_failed (st : QueueState) (h : Reachable st) :
    ∀ b, alookup st.batch_status b ≠ some .failed := by
  induction h with
  | init => intro b; simp [initState, alookup]
  | add st now texts metas hst ih =>
    simp only [add_batch]
    split_ifs with hu
    · dsimp only
      exact alookup_aset_notFailed _ _ _ (by decide)
        (alookup_aset_notFailed _ _ _ (by decide) ih)
    · dsimp only
      exact alookup_aset_notFailed _ _ _ (by decide) ih
  | step st attempts hst ih =>
    simp only [processStep]
    split_ifs with hempty
    · dsimp only
      exact alookup_foldl_notFailed _
        (fun s i h0 => alookup_aset_notFailed s i _ (by decide) h0) _ _ ih
    · dsimp only
      refine alookup_foldl_notFailed _ ?_ _ _
        (alookup_foldl_notFailed _
          (fun s i h0 => alookup_aset_notFailed s i _ (by decide) h0) _ _ ih)
      intro s i h0 b
      split_ifs
      · exact alookup_aset_notFailed s i _ (by decide) h0 b
      · exact h0 b

/-- Witness for C5: the concrete reachable state reached by submitting
`["a"]` and processing it has no batch in state `'failed'`. -/
theorem c5_no_batch_ever_failed_witness :
    alookup (processStep (add_batch initState 0 ["a"] ["m"]).1
      [some [some [1, 1]]]).batch_status (mkBatchId 0 1) ≠ some .failed :=
  c5_no_batch_ever_failed _
    (Reachable.step _ _ (Reachable.add _ _ _ _ Reachable.init)) (mkBatchId 0 1)

/-- **C6.**  Submitting `texts1` and later — after its texts are all
cached — submitting `texts1 ++ newTexts` yields two distinct batch ids
(the ids embed the distinct submission timestamps), enqueues exactly the
uncached suffix texts, and, when every text of the second submission is
already cached (in particular on an identical resubmission), enqueues
nothing and marks the second batch `completed` at submit time. -/
theorem c6_resubmission_dedup (st st' : QueueState) (t1 t2 : Nat)
    (texts1 newTexts m1 m2 : List String)
    (ht : t1 ≠ t2)
    (hm2 : m2.length = texts1.length + newTexts.length)
    (hcached : ∀ tx ∈ texts1, (alookup st'.cache (md5 tx)).isSome = true) :
    (add_batch st t1 texts1 m1).2 ≠ (add_batch st' t2 (texts1 ++ newTexts) m2).2 ∧
    (newTexts.filter (fun tx => (alookup st'.cache (md5 tx)).isNone) = [] →
      (add_batch st' t2 (texts1 ++ newTexts) m2).1.queue = st'.queue ∧
      alookup (add_batch st' t2 (texts1 ++ newTexts) m2).1.batch_status
        (add_batch st' t2 (texts1 ++ newTexts) m2).2 = some .completed) ∧
    (newTexts.filter (fun tx => (alookup st'.cache (md5 tx)).isNone) ≠ [] →
      ∃ entry, (add_batch st' t2 (texts1 ++ newTexts) m2).1.queue = st'.queue ++ [entry] ∧
        entry.texts = newTexts.filter (fun tx => (alookup st'.cache (md5 tx)).isNone)) := by
  have hlen1 : (m2.take texts1.length).length = texts1.length := by
    rw [List.length_take]; omega
  have hsplit : (texts1 ++ newTexts).zip m2 =
      texts1.zip (m2.take texts1.length) ++ newTexts.zip (m2.drop texts1.length) := by
    conv_lhs => rw [← List.take_append_drop texts1.length m2]
    exact List.zip_append hlen1.symm
  have hfirst : (texts1.zip (m2.take texts1.length)).filter
      (fun p => (alookup st'.cache (md5 p.1)).isNone) = [] := by
    rw [List.filter_eq_nil_iff]
    intro p hp
    obtain ⟨h1, _⟩ := List.of_mem_zip hp
    have hs := hcached p.1 h1
    simp [Option.isNone_iff_eq_none, Option.isSome_iff_exists] at hs ⊢
    obtain ⟨v, hv⟩ := hs
    simp [hv]
  have huniq : (((texts1 ++ newTexts).zip m2).filter
      (fun p => (alookup st'.cache (md5 p.1)).isNone)).map (fun p => p.1) =
      newTexts.filter (fun tx => (alookup st'.cache (md5 tx)).isNone) := by
    rw [hsplit, List.filter_append, hfirst, List.nil_append]
    exact filter_zip_fst (fun tx => (alookup st'.cache (md5 tx)).isNone) newTexts
      (m2.drop texts1.length) (by rw [List.length_drop]; omega)
  refine ⟨?_, ?_, ?_⟩
  · have h1 : (add_batch st t1 texts1 m1).2 = mkBatchId t1 texts1.length := by
      simp only [add_batch]; split <;> rfl
    have h2 : (add_batch st' t2 (texts1 ++ newTexts) m2).2 =
        mkBatchId t2 (texts1 ++ newTexts).length := by
      simp only [add_batch]; split <;> rfl
    rw [h1, h2]
    simp only [mkBatchId, ne_eq, Prod.mk.injEq, not_and]
    intro hth
    exact absurd hth ht
  · intro hempty
    have hX : (((texts1 ++ newTexts).zip m2).filter
        (fun p => (alookup st'.cache (md5 p.1)).isNone)).map (fun p => p.1) = [] := by
      rw [huniq, hempty]
    constructor
    · simp only [add_batch, hX, List.isEmpty_nil, if_true]
    · simp only [add_batch, hX, List.isEmpty_nil, if_true]
      exact alookup_aset_self _ _ _
  · intro hne
    have hX : (((texts1 ++ newTexts).zip m2).filter
        (fun p => (alookup st'.cache (md5 p.1)).isNone)).map (fun p => p.1) ≠ [] := by
      rw [huniq]; exact hne
    refine ⟨⟨mkBatchId t2 (texts1 ++ newTexts).length,
      (((texts1 ++ newTexts).zip m2).filter
        (fun p => (alookup st'.cache (md5 p.1)).isNone)).map (fun p => p.1),
      (((texts1 ++ newTexts).zip m2).filter
        (fun p => (alookup st'.cache (md5 p.1)).isNone)).map (fun p => p.2),
      (((texts1 ++ newTexts).zip m2).filter
        (fun p => (alookup st'.cache (md5 p.1)).isNone)).map (fun p => md5 p.1)⟩,
      ?_, ?_⟩
    · have hXb : ((((texts1 ++ newTexts).zip m2).filter
          (fun p => (alookup st'.cache (md5 p.1)).isNone)).map (fun p => p.1)).isEmpty = false := by
        cases hc : (((texts1 ++ newTexts).zip m2).filter
            (fun p => (alookup st'.cache (md5 p.1)).isNone)).map (fun p => p.1) with
        | nil => exact absurd hc hX
        | cons a l => rfl
      simp only [add_batch, hXb, Bool.false_eq_true, if_false]
    · exact huniq

/-- Witness for C6: the first submission `["a"]` into a fresh queue, then
an identical resubmission against a state whose cache holds `md5 "a"`:
distinct ids, nothing enqueued, completed at submit time. -/
theorem c6_resubmission_dedup_witness :
    (add_batch initState 0 ["a"] ["m"]).2 ≠ (add_batch stCachedA 1 (["a"] ++ []) ["m"]).2 ∧
    (([] : List String).filter (fun tx => (alookup stCachedA.cache (md5 tx)).isNone) = [] →
      (add_batch stCachedA 1 (["a"] ++ []) ["m"]).1.queue = stCachedA.queue ∧
      alookup (add_batch stCachedA 1 (["a"] ++ []) ["m"]).1.batch_status
        (add_batch stCachedA 1 (["a"] ++ []) ["m"]).2 = some .completed) ∧
    (([] : List String).filter (fun tx => (alookup stCachedA.cache (md5 tx)).isNone) ≠ [] →
      ∃ entry, (add_batch stCachedA 1 (["a"] ++ []) ["m"]).1.queue = stCachedA.queue ++ [entry] ∧
        entry.texts = ([] : List String).filter
          (fun tx => (alookup stCachedA.cache (md5 tx)).isNone)) :=
  c6_resubmission_dedup initState stCachedA 0 1 ["a"] [] ["m"] ["m"]
    (by decide) (by decide) (by decide)

end EmbeddingQueueModel

namespace SqlGeneratorModel

/-- **C3.**  The dangerous-keyword check raises inside `_validate_sql`,
but the function's own `except Exception` catches the `ValueError` and
returns the SQL unchanged, so a `DROP` statement is returned for
execution rather than rejected; `execute_sql` performs no keyword check
either and sends the statement — with a safety LIMIT appended — to the
database. -/
theorem c3_dangerous_sql_returned_unchanged :
    validate_sql "DROP TABLE users;" "public" = "DROP TABLE users;" ∧
    containsDangerousKeyword "DROP TABLE users;" = true ∧
    executeSqlText "DROP TABLE users;" 1000 = "DROP TABLE users LIMIT 1000;" := by
  decide

end SqlGeneratorModel

namespace SearchQueryModel

set_option maxRecDepth 8000 in
/-- **C4, counterexample.**  Two filter maps with the same single key and
the same (string) value shape but different values produce different SQL
texts: the value is concatenated into the query, not bound as a
parameter. -/
theorem c4_sql_text_depends_on_filter_values :
    build_hybrid_search_query "public" none [("cat", .str "x")] 20 ≠
      build_hybrid_search_query "public" none [("cat", .str "y")] 20 := by
  decide

set_option maxRecDepth 8000 in
/-- **C4, amended.**  The builder interpolates filter values verbatim into
the SQL string — only the query embedding (`$1`) and the similarity
threshold (`$2`) are bound parameters — so the built text depends on the
filter values: equal-shaped maps with different values can differ, and the
rendered comparison literals occur in the output. -/
theorem c4_filter_values_interpolated :
    (∃ v₁ v₂ : String, v₁ ≠ v₂ ∧
      build_hybrid_search_query "public" none [("cat", .str v₁)] 20 ≠
        build_hybrid_search_query "public" none [("cat", .str v₂)] 20) ∧
    strContains (build_hybrid_search_query "public" none [("cat", .str "x")] 20)
      (" = " ++ sq ++ "\"x\"" ++ sq) = true ∧
    strContains (build_hybrid_search_query "public" none [("n", .num 7)] 20)
      " = 7" = true := by
  refine ⟨⟨"x", "y", by decide, by decide⟩, by decide, by decide⟩

end SearchQueryModel

namespace AggregationModel

/-- **C7, counterexample.**  `"stok paling sedikit"` matches the
lowest-stock superlative pattern, but `_get_lowest_stock_items` is a
placeholder returning `[]`, so `hybrid_search` does not return rows
ordered by stock — it falls through to the keyword-fallback / vector
phases (where an embedding may be requested), even over a store whose
rows carry stocks 5, 42 and 17. -/
theorem c7_lowest_stock_falls_through :
    detectPattern "stok paling sedikit" = some .lowest_stock ∧
    getLowestStockItems store3 "s" none 10 = [] ∧
    hybridRoute store3 "stok paling sedikit" "s" none 10 = .fallbackOrVector := by
  decide

theorem mem_insertSorted {α : Type} (le : α → α → Bool) (a x : α) (l : List α)
    (hx : x ∈ insertSorted le a l) : x = a ∨ x ∈ l := by
  induction l with
  | nil => simp [insertSorted] at hx; exact Or.inl hx
  | cons b bs ih =>
    rw [insertSorted] at hx
    split_ifs at hx
    · rcases List.mem_cons.mp hx with h | h
      · exact Or.inl h
      · exact Or.inr h
    · rcases List.mem_cons.mp hx with h | h
      · exact Or.inr (h ▸ List.mem_cons_self b bs)
      · rcases ih h with h' | h'
        · exact Or.inl h'
        · exact Or.inr (List.mem_cons_of_mem _ h')

theorem insertSorted_pairwise {α : Type} (le : α → α → Bool)
    (htot : ∀ a b, le a b = true ∨ le b a = true)
    (htrans : ∀ a b c, le a b = true → le b c = true → le a c = true)
    (a : α) (l : List α) (hl : l.Pairwise (fun x y => le x y = true)) :
    (insertSorted le a l).Pairwise (fun x y => le x y = true) := by
  induction l with
  | nil => simp [insertSorted]
  | cons b bs ih =>
    rw [insertSorted]
    rcases List.pairwise_cons.mp hl with ⟨hb, hbs⟩
    split_ifs with hab
    · refine List.pairwise_cons.mpr ⟨?_, hl⟩
      intro x hx
      rcases List.mem_cons.mp hx with h | h
      · exact h ▸ hab
      · exact htrans a b x hab (hb x h)
    · have hba : le b a = true := by
        rcases htot a b with h | h
        · exact absurd h hab
        · exact h
      refine List.pairwise_cons.mpr ⟨?_, ih hbs⟩
      intro x hx
      rcases mem_insertSorted le a x bs hx with h | h
      · exact h ▸ hba
      · exact hb x h

theorem sortByB_pairwise {α : Type} (le : α → α → Bool)
    (htot : ∀ a b, le a b = true ∨ le b a = true)
    (htrans : ∀ a b c, le a b = true → le b c = true → le a c = true)
    (l : List α) : (sortByB le l).Pairwise (fun x y => le x y = true) := by
  induction l with
  | nil => simp [sortByB]
  | cons x xs ih => exact insertSorted_pairwise le htot htrans x _ ih

/-- **C7, amended.**  Only the highest-stock pattern takes the aggregation
shortcut, and only when the lookup returns at least one row: the route is
then the aggregation result — returned before any embedding is requested —
with rows pairwise ordered by descending `im_stock` and scores
`1.0, 0.95, 0.90, …` by rank.  The lowest-stock and both price handlers
are placeholders returning `[]` (see the counterexample), so those queries
fall through to the normal search path. -/
theorem c7_highest_stock_shortcut (store : List EmbRow) (q schema : String)
    (table : Option String) (topk : Nat)
    (hq : detectPattern q = some .highest_stock)
    (hne : getHighestStockItems store schema table topk ≠ []) :
    hybridRoute store q schema table topk =
      .aggregation (getHighestStockItems store schema table topk) ∧
    (getHighestStockItems store schema table topk).Pairwise
      (fun a b => stockQ a.1 ≥ stockQ b.1) ∧
    (getHighestStockItems store schema table topk).map (fun p => p.2) =
      (List.range (getHighestStockItems store schema table topk).length).map
        (fun i : Nat => 1 - (i : ℚ) * (1 / 20)) := by
  have hnr : ¬ ((store.filter (inScope schema table)).any stockCastRaises = true) := by
    intro hr
    exact hne (by rw [getHighestStockItems, if_pos hr])
  refine ⟨?_, ?_, ?_⟩
  · rw [hybridRoute, handle_aggregation_query, hq]
    have : (getHighestStockItems store schema table topk).isEmpty = false := by
      cases hc : getHighestStockItems store schema table topk with
      | nil => exact absurd hc hne
      | cons a l => rfl
    simp [this]
  · have hsorted : (sortByB stockGe (store.filter (rowMatches schema table))).Pairwise
        (fun x y => stockGe x y = true) := by
      refine sortByB_pairwise stockGe ?_ ?_ _
      · intro a b
        rcases le_total (stockQ b) (stockQ a) with h | h
        · exact Or.inl (by simp [stockGe, h])
        · exact Or.inr (by simp [stockGe, h])
      · intro a b c hab hbc
        simp only [stockGe, decide_eq_true_eq] at hab hbc ⊢
        exact le_trans hbc hab
    have htake : ((sortByB stockGe (store.filter (rowMatches schema table))).take topk).Pairwise
        (fun x y => stockGe x y = true) :=
      hsorted.sublist (List.take_sublist _ _)
    have henum : (((sortByB stockGe (store.filter (rowMatches schema table))).take topk).enum).Pairwise
        (fun x y => stockGe x.2 y.2 = true) := by
      have hmap := (List.pairwise_map (f := (Prod.snd : Nat × EmbRow → EmbRow))
        (l := ((sortByB stockGe (store.filter (rowMatches schema table))).take topk).enum)
        (R := fun x y => stockGe x y = true))
      rw [List.enum_map_snd] at hmap
      exact hmap.mp htake
    rw [getHighestStockItems, if_neg hnr]
    have hfinal := (List.pairwise_map
      (f := fun p : Nat × EmbRow => (p.2, 1 - (p.1 : ℚ) * (1 / 20)))
      (l := ((sortByB stockGe (store.filter (rowMatches schema table))).take topk).enum)
      (R := fun a b : EmbRow × ℚ => stockQ a.1 ≥ stockQ b.1))
    refine hfinal.mpr ?_
    refine henum.imp ?_
    intro a b hab
    simp only [stockGe, decide_eq_true_eq] at hab
    exact hab
  · rw [getHighestStockItems, if_neg hnr]
    rw [List.map_map, List.length_map]
    have h1 : ((fun p : EmbRow × ℚ => p.2) ∘
        (fun p : Nat × EmbRow => (p.2, 1 - (p.1 : ℚ) * (1 / 20)))) =
        (fun i : Nat => 1 - (i : ℚ) * (1 / 20)) ∘ (Prod.fst : Nat × EmbRow → Nat) := rfl
    rw [h1, ← List.map_map, List.enum_map_fst, List.enum_length]

/-- Witness for the amended C7 theorem: the spec's aggregation scenario —
stocks 5, 42, 17 and the query `"stok paling banyak"`. -/
theorem c7_highest_stock_shortcut_witness :
    hybridRoute store3 "stok paling banyak" "s" none 10 =
      .aggregation (getHighestStockItems store3 "s" none 10) ∧
    (getHighestStockItems store3 "s" none 10).Pairwise
      (fun a b => stockQ a.1 ≥ stockQ b.1) ∧
    (getHighestStockItems store3 "s" none 10).map (fun p => p.2) =
      (List.range (getHighestStockItems store3 "s" none 10).length).map
        (fun i : Nat => 1 - (i : ℚ) * (1 / 20)) :=
  c7_highest_stock_shortcut store3 "stok paling banyak" "s" none 10
    (by decide) (by decide)

end AggregationModel

namespace ContentBoostModel

/-- The partial-word branch of `_calculate_content_boost` can never fire:
a term contained in one of the content's words is already a substring of
the content, so the exact branch has taken it. -/
theorem partial_branch_dead (cl t : List Char) (h : containsL cl t = false) :
    ((pysplit cl).any (fun w => containsL w t && decide (t.length ≥ 2))) = false := by
  rw [List.any_eq_false]
  intro w hw
  simp only [Bool.and_eq_true, decide_eq_true_eq, not_and]
  intro hwt _
  have htw : t <:+: w := of_decide_eq_true hwt
  have hwcl : w <:+: cl := by
    have := splitWSAux_mem_infix cl [] w hw
    simpa using this
  have : containsL cl t = true := decide_eq_true (htw.trans hwcl)
  rw [h] at this
  exact Bool.false_ne_true this

/-- Closed form of the matching loop: the exact count is the number of
terms occurring in the content, the partial accumulator stays zero, and
the sequence bonus fires exactly when the join condition holds and some
term occurs. -/
theorem boostLoop_aux (cl : List Char) (cond : Bool) (l : List (List Char)) :
    ∀ (e0 : Nat) (p0 s0 : ℚ),
    l.foldl (fun st t =>
      if containsL cl t then
        (st.1 + 1, st.2.1, if cond then (3 / 10 : ℚ) else st.2.2)
      else
        if (pysplit cl).any (fun w => containsL w t && decide (t.length ≥ 2)) then
          (st.1, st.2.1 + 7 / 10, st.2.2)
        else st) (e0, p0, s0) =
    (e0 + (l.filter (fun t => containsL cl t)).length, p0,
      if cond && l.any (fun t => containsL cl t) then (3 / 10 : ℚ) else s0) := by
  induction l with
  | nil => intro e0 p0 s0; simp
  | cons t ts ih =>
    intro e0 p0 s0
    by_cases hct : containsL cl t = true
    · rw [List.foldl_cons]
      simp only [hct, if_true]
      rw [ih]
      rw [List.filter_cons_of_pos (by simpa using hct), List.any_cons, hct]
      simp only [List.length_cons, Bool.true_or, Bool.and_true, Prod.mk.injEq]
      refine ⟨by omega, trivial, ?_⟩
      cases cond with
      | true =>
        cases hts : ts.any (fun t => containsL cl t) <;> simp
      | false => simp
    · have hcf : containsL cl t = false := Bool.eq_false_iff.mpr hct
      rw [List.foldl_cons]
      simp only [hcf, Bool.false_eq_true, if_false, partial_branch_dead cl t hcf]
      rw [ih]
      rw [List.filter_cons_of_neg (by simp [hcf]), List.any_cons, hcf]
      simp

/-- The content boost the source computes, in closed form. -/
theorem boost_eq_closed (q c : String) :
    calculate_content_boost q c = boostClosed q c := by
  simp only [calculate_content_boost, boostClosed]
  refine if_congr Iff.rfl rfl ?_
  refine if_congr Iff.rfl rfl ?_
  rw [boostLoop, boostLoop_aux]
  dsimp only
  rw [Bool.and_assoc, Nat.zero_add, zero_div, zero_mul, add_zero]

/-- **C8, counterexample.**  For the query `"aaa bbb ccc"` and content
`"aaa bbb xxx"` at vector similarity 1/2, the source's score differs from
the claimed formula: the first two query terms do appear in order, but
the source only grants the 0.3 sequence bonus when the space-join of
*all* query terms occurs contiguously in the content, which
`"aaa bbb ccc"` does not. -/
theorem c8_sequence_bonus_not_first_two :
    resultScore (1 / 2) "aaa bbb ccc" "aaa bbb xxx" ≠
      (1 / 2) * (7 / 10) + claimedContentBoost "aaa bbb ccc" "aaa bbb xxx" * (3 / 10) := by
  have h1 : calculate_content_boost "aaa bbb ccc" "aaa bbb xxx" = 2 / 3 := by
    have h : boostLoop ((lowerS "aaa bbb xxx").toList)
        ((pysplit ((lowerS "aaa bbb ccc").toList)).filter (fun t => t.length > 2)) =
        (2, 0, 0) := by
      decide
    have hne : ("aaa bbb xxx" : String).isEmpty = false := by decide
    have hlen : ((pysplit ((lowerS "aaa bbb ccc").toList)).filter
        (fun t => t.length > 2)).length = 3 := by decide
    simp only [calculate_content_boost, hne, Bool.false_eq_true, if_false, h, hlen]
    norm_num [min_def]
  have h2 : claimedContentBoost "aaa bbb ccc" "aaa bbb xxx" = 29 / 30 := by
    have hne : ("aaa bbb xxx" : String).isEmpty = false := by decide
    have hterms : ((pysplit ((lowerS "aaa bbb ccc").toList)).filter (fun t => t.length > 2)) =
        ["aaa".toList, "bbb".toList, "ccc".toList] := by decide
    have hex : ((["aaa".toList, "bbb".toList, "ccc".toList]).filter
        (fun t => containsL ((lowerS "aaa bbb xxx").toList) t)).length = 2 := by decide
    have hpart : ((["aaa".toList, "bbb".toList, "ccc".toList]).filter
        (fun t => !containsL ((lowerS "aaa bbb xxx").toList) t &&
          (pysplit ((lowerS "aaa bbb xxx").toList)).any
            (fun w => containsL w t))).length = 0 := by decide
    have hseq : inOrderB ((lowerS "aaa bbb xxx").toList) "aaa".toList "bbb".toList = true := by
      decide
    simp only [claimedContentBoost, hne, Bool.false_eq_true, if_false, hterms, hex, hpart,
      hseq, List.length_cons, List.length_nil]
    norm_num [min_def]
  rw [resultScore, h1, h2]
  norm_num

/-- **C8, amended.**  The final vector-path score is
`0.7 · similarity + 0.3 · boost`, where the boost is the exact-term hit
fraction plus a 0.3 sequence bonus — granted exactly when at least one
term occurs in the content, there are at least two terms, and the
space-join of *all* query terms occurs contiguously in the content —
capped at 1.0.  The partial-word component of the source contributes 0 on
every input (`partial_branch_dead`), so no partial-word fraction appears
in the score. -/
theorem c8_score_closed_form (sim : ℚ) (q c : String) :
    resultScore sim q c = sim * (7 / 10) + boostClosed q c * (3 / 10) := by
  rw [resultScore, boost_eq_closed]

end ContentBoostModel

namespace SyncIdModel

/-- **C9, counterexample.**  A row `{"id": 7}` of table `t` in schema `s`:
on the `sync_table` path (`_process_batch_with_validation` →
`_extract_row_id`) the stored identifier is the bare `"7"`, not the
claimed `"s_t_7"` — only the `_process_batch` path builds the prefixed
form. -/
theorem c9_validation_path_id_unprefixed :
    extract_row_id [("id", some "7")] = RowId.plain "7" ∧
    processBatchRowId "s" "t" (some "id") [("id", some "7")] "row text" =
      RowId.plain "s_t_7" ∧
    RowId.plain "7" ≠ RowId.plain "s_t_7" := by
  decide

/-- **C9, amended.**  The sync pipeline derives identifiers two ways.
Rows processed by `_process_batch` (full/incremental sync internals) get
`"{schema}_{table}_{pk}"` when the table-info primary key is present in
the row, else `md5("{schema}_{table}_{text}")`.  Rows processed by
`sync_table`'s `_process_batch_with_validation` get `_extract_row_id`:
the bare `str(value)` of an `id`/`uuid`/`guid`/`primary_id` column
(no schema/table prefix), else a `*_id`/`*_uuid` column, else the md5 of
the JSON row dump. -/
theorem c9_two_id_derivations (schema table text w : String) (row : Row)
    (hw : alookup row "id" = some (some w)) :
    processBatchRowId schema table (some "id") row text =
      .plain (schema ++ "_" ++ table ++ "_" ++ w) ∧
    processBatchRowId schema table none row text =
      .md5hex (schema ++ "_" ++ table ++ "_" ++ text) ∧
    extract_row_id row = .plain w := by
  refine ⟨?_, rfl, ?_⟩
  · simp only [processBatchRowId, hw]
    rw [if_neg (by decide)]
    rfl
  · rw [extract_row_id, pk_candidates]
    have hp : isPkCandidateHit row "id" = true := by
      rw [isPkCandidateHit, hw]
    rw [List.find?_cons_of_pos _ hp]
    dsimp only
    rw [hw]
    rfl

/-- Witness for the amended C9 theorem at the row `{"id": 7}`. -/
theorem c9_two_id_derivations_witness :
    processBatchRowId "s" "t" (some "id") [("id", some "7")] "row text" =
      .plain ("s" ++ "_" ++ "t" ++ "_" ++ "7") ∧
    processBatchRowId "s" "t" none [("id", some "7")] "row text" =
      .md5hex ("s" ++ "_" ++ "t" ++ "_" ++ "row text") ∧
    extract_row_id [("id", some "7")] = .plain "7" :=
  c9_two_id_derivations "s" "t" "row text" "7" [("id", some "7")] (by decide)

end SyncIdModel

namespace SimilarityModel

/-- **C10.**  `calculate_similarity` is total — it always returns a value,
never dividing by zero (the guard `norm1 == 0 or norm2 == 0` runs first
and, in exact arithmetic, a product of non-zero norms is non-zero) — and
it returns 0.0 whenever either input is empty or has zero Euclidean
norm. -/
theorem c10_similarity_total_and_zero_guard (e1 e2 : List ℝ) :
    ∃ r, calculate_similarity e1 e2 = some r ∧
      ((e1.isEmpty = true ∨ e2.isEmpty = true ∨
        (e1.map (fun a => a * a)).sum = 0 ∨ (e2.map (fun a => a * a)).sum = 0) →
        r = 0) := by
  simp only [calculate_similarity]
  by_cases hemp : (e1.isEmpty || e2.isEmpty) = true
  · exact ⟨0, by rw [if_pos hemp], fun _ => rfl⟩
  · rw [if_neg hemp]
    by_cases hz : pyNorm e1 = 0 ∨ pyNorm e2 = 0
    · exact ⟨0, by rw [dif_pos hz], fun _ => rfl⟩
    · have h1 : pyNorm e1 ≠ 0 := fun h => hz (Or.inl h)
      have h2 : pyNorm e2 ≠ 0 := fun h => hz (Or.inr h)
      have hprod : pyNorm e1 * pyNorm e2 ≠ 0 := mul_ne_zero h1 h2
      rw [dif_neg hz, dif_neg hprod]
      refine ⟨_, rfl, ?_⟩
      intro hcase
      exfalso
      rcases hcase with h | h | h | h
      · exact hemp (by rw [h, Bool.true_or])
      · exact hemp (by rw [h, Bool.or_true])
      · exact h1 (by rw [pyNorm, h, Real.sqrt_zero])
      · exact h2 (by rw [pyNorm, h, Real.sqrt_zero])

/-- Witness for C10: the empty first vector yields similarity 0.0. -/
theorem c10_similarity_witness :
    calculate_similarity ([] : List ℝ) [1] = some 0 := by
  obtain ⟨r, hr, h0⟩ := c10_similarity_total_and_zero_guard ([] : List ℝ) [1]
  rw [hr, h0 (Or.inl rfl)]

end SimilarityModel
